import Mathlib

/-!
Verification of the termcap display-driver specification against the data
model declared in src/src/termchar.h (struct tty_display_info, struct
tty_output, FRAME_TTY).  Capability strings (nullable char pointers in the
header) are modelled as optional byte lists; a parameterized capability
emits its template bytes followed by the encoded parameters.  The header
declares the data model only; the operations on it (term.c) are not part
of the repository, so each operation below is modelled from the spec and
says so in its doc comment.
-/

namespace Termchar

/-- Error kinds of the driver, from section 7 of the spec. -/
inductive TtyError
  | InvalidRegion
  | DeviceWriteFailure
  | UnknownTerminalType
  | IncompleteCapabilities
  deriving DecidableEq, Repr

/-- Capability table: the termcap strings and numbers held in struct
tty_display_info (src/src/termchar.h lines 97-182), restricted to the
fields the claims touch.  A nullable string pointer becomes an optional
byte list: absence is distinguishable from an empty sequence. -/
structure CapabilityTable where
  TS_ins_line : Option (List Nat)
  TS_ins_multi_lines : Option (List Nat)
  TS_del_line : Option (List Nat)
  TS_del_multi_lines : Option (List Nat)
  TS_set_scroll_region : Option (List Nat)
  TS_insert_mode : Option (List Nat)
  TS_end_insert_mode : Option (List Nat)
  TS_standout_mode : Option (List Nat)
  TS_end_standout_mode : Option (List Nat)
  TS_cursor_normal : Option (List Nat)
  TS_cursor_invisible : Option (List Nat)
  TS_repeat : Option (List Nat)
  TS_enter_bold_mode : Option (List Nat)
  TS_enter_dim_mode : Option (List Nat)
  TS_enter_italic_mode : Option (List Nat)
  TS_enter_reverse_mode : Option (List Nat)
  TS_enter_underline_mode : Option (List Nat)
  TS_exit_underline_mode : Option (List Nat)
  TS_exit_attribute_mode : Option (List Nat)
  RPov : Nat
  scroll_region_cost : Nat
  deriving DecidableEq, Repr

/-- Mode state: the mutable per-device flags of struct tty_display_info
(insert_mode, standout_mode at lines 188-189, cursor_hidden at line 207)
plus the tracked scroll region of the spec's ModeState. -/
structure ModeState where
  insert_mode : Bool
  standout_mode : Bool
  cursor_hidden : Bool
  scroll_region : Option (Int × Int)
  deriving DecidableEq, Repr

/-- The mode-transition requests of spec section 4.3 that toggle a tracked
boolean flag. -/
inductive ModeRequest
  | enterInsertMode
  | exitInsertMode
  | enterStandoutMode
  | exitStandoutMode
  | hideCursor
  | showCursor
  deriving DecidableEq, Repr

instance : Fintype ModeRequest :=
  ⟨⟨{ModeRequest.enterInsertMode, ModeRequest.exitInsertMode, ModeRequest.enterStandoutMode,
     ModeRequest.exitStandoutMode, ModeRequest.hideCursor, ModeRequest.showCursor}, by decide⟩,
   by intro x; cases x <;> decide⟩

/-- The capability that realizes a given mode request, looked up in the
table (the TS_... fields of termchar.h). -/
def reqCap (tab : CapabilityTable) : ModeRequest → Option (List Nat)
  | .enterInsertMode => tab.TS_insert_mode
  | .exitInsertMode => tab.TS_end_insert_mode
  | .enterStandoutMode => tab.TS_standout_mode
  | .exitStandoutMode => tab.TS_end_standout_mode
  | .hideCursor => tab.TS_cursor_invisible
  | .showCursor => tab.TS_cursor_normal

/-- Whether the mode state already satisfies the request. -/
def inRequested (s : ModeState) : ModeRequest → Bool
  | .enterInsertMode => s.insert_mode
  | .exitInsertMode => !s.insert_mode
  | .enterStandoutMode => s.standout_mode
  | .exitStandoutMode => !s.standout_mode
  | .hideCursor => s.cursor_hidden
  | .showCursor => !s.cursor_hidden

/-- The flag update a mode request performs when its capability is emitted. -/
def applyFlag (s : ModeState) : ModeRequest → ModeState
  | .enterInsertMode => { s with insert_mode := true }
  | .exitInsertMode => { s with insert_mode := false }
  | .enterStandoutMode => { s with standout_mode := true }
  | .exitStandoutMode => { s with standout_mode := false }
  | .hideCursor => { s with cursor_hidden := true }
  | .showCursor => { s with cursor_hidden := false }

/-- Modelled from the spec: the mode state machine transition of section
4.3 (its implementation, term.c, is not under src/).  A request already
satisfied is a no-op; a request whose capability is absent degrades to a
no-op (section 4.3 failure semantics); otherwise the capability bytes are
emitted and the flag flips with them. -/
def step (tab : CapabilityTable) (s : ModeState) (r : ModeRequest) : ModeState × List Nat :=
  if inRequested s r then (s, [])
  else
    match reqCap tab r with
    | none => (s, [])
    | some cap => (applyFlag s r, cap)

/-- Process a sequence of mode requests in order, concatenating the
emitted bytes (spec section 4.3 ordering guarantee). -/
def processAll (tab : CapabilityTable) (s : ModeState) : List ModeRequest → ModeState × List Nat
  | [] => (s, [])
  | r :: rs =>
    let p := step tab s r
    let q := processAll tab p.1 rs
    (q.1, p.2 ++ q.2)

/-- A well-formed capability table: a present mode capability is a
nonempty byte sequence (termcap encodes absence as a null pointer, never
as an empty escape sequence). -/
def WfTable (tab : CapabilityTable) : Prop :=
  ∀ r : ModeRequest, reqCap tab r ≠ some []

instance (tab : CapabilityTable) : Decidable (WfTable tab) :=
  inferInstanceAs (Decidable (∀ r : ModeRequest, reqCap tab r ≠ some []))

/-- A concrete capability table used to instantiate the theorems: every
capability present, repeat threshold 4. -/
def tab0 : CapabilityTable where
  TS_ins_line := some [27, 76]
  TS_ins_multi_lines := some [27, 77]
  TS_del_line := some [27, 68]
  TS_del_multi_lines := some [27, 69]
  TS_set_scroll_region := some [27, 115]
  TS_insert_mode := some [27, 105]
  TS_end_insert_mode := some [27, 106]
  TS_standout_mode := some [27, 111]
  TS_end_standout_mode := some [27, 112]
  TS_cursor_normal := some [27, 118]
  TS_cursor_invisible := some [27, 104]
  TS_repeat := some [27, 114]
  TS_enter_bold_mode := some [27, 49]
  TS_enter_dim_mode := some [27, 50]
  TS_enter_italic_mode := some [27, 51]
  TS_enter_reverse_mode := some [27, 52]
  TS_enter_underline_mode := some [27, 53]
  TS_exit_underline_mode := some [27, 54]
  TS_exit_attribute_mode := some [27, 48]
  RPov := 4
  scroll_region_cost := 9

/-- The baseline mode state: no special modes active, cursor visible,
full-screen scroll region (spec section 3 lifecycle). -/
def ms0 : ModeState where
  insert_mode := false
  standout_mode := false
  cursor_hidden := false
  scroll_region := none

/-- A step that emits nothing leaves the mode state unchanged, provided
present capabilities are nonempty. -/
theorem step_unchanged_of_silent (tab : CapabilityTable) (s : ModeState) (r : ModeRequest)
    (hwf : WfTable tab) (h : (step tab s r).2 = []) : (step tab s r).1 = s := by
  unfold step at h ⊢
  by_cases hin : inRequested s r
  · simp [hin]
  · cases hc : reqCap tab r with
    | none => simp [hin, hc]
    | some cap =>
        simp only [hin, hc, if_neg, Bool.false_eq_true, if_false] at h
        exact absurd (hc.trans (congrArg some h)) (hwf r)

/-- A sequence of requests that emits nothing leaves the mode state
unchanged. -/
theorem processAll_unchanged_of_silent (tab : CapabilityTable) (hwf : WfTable tab) :
    ∀ (rs : List ModeRequest) (s : ModeState),
      (processAll tab s rs).2 = [] → (processAll tab s rs).1 = s := by
  intro rs
  induction rs with
  | nil => intro s _; rfl
  | cons r rs ih =>
      intro s h
      unfold processAll at h ⊢
      simp only [List.append_eq_nil] at h
      have h1 : (step tab s r).1 = s := step_unchanged_of_silent tab s r hwf h.1
      show (processAll tab (step tab s r).1 rs).1 = s
      rw [h1]
      exact ih s (h1 ▸ h.2)

/-- C1: the tracked ModeState reflects exactly what has been emitted.  A
single request changes the state only by emitting precisely the
corresponding capability bytes (which are nonempty), and a sequence of
requests that emits no bytes leaves the state unchanged. -/
theorem mode_state_reflects_emissions (tab : CapabilityTable) (s : ModeState)
    (hwf : WfTable tab) :
    (∀ r : ModeRequest, (step tab s r).1 ≠ s →
        reqCap tab r = some (step tab s r).2 ∧ (step tab s r).2 ≠ []) ∧
    (∀ rs : List ModeRequest, (processAll tab s rs).2 = [] →
        (processAll tab s rs).1 = s) := by
  constructor
  · intro r hne
    by_cases hin : inRequested s r
    · exact absurd (by unfold step; simp [hin]) hne
    · cases hc : reqCap tab r with
      | none => exact absurd (by unfold step; simp [hin, hc]) hne
      | some cap =>
          have hstep : step tab s r = (applyFlag s r, cap) := by
            unfold step; simp [hin, hc]
          rw [hstep]
          constructor
          · rfl
          · intro hnil
            have hcap : cap = [] := hnil
            exact (hwf r) (by rw [hc, hcap])
  · exact fun rs => processAll_unchanged_of_silent tab hwf rs s

/-- Witness for C1: on the concrete table, entering insert mode from the
baseline state changes the state and emits exactly the insert-mode
capability. -/
theorem mode_state_reflects_emissions_witness :
    reqCap tab0 ModeRequest.enterInsertMode =
      some (step tab0 ms0 ModeRequest.enterInsertMode).2 ∧
    (step tab0 ms0 ModeRequest.enterInsertMode).2 ≠ [] :=
  (mode_state_reflects_emissions tab0 ms0 (by decide)).1 ModeRequest.enterInsertMode (by decide)

/-- After a mode request is processed, the state satisfies the request
whenever its capability exists or it was satisfied already. -/
theorem inRequested_applyFlag (s : ModeState) (r : ModeRequest) :
    inRequested (applyFlag s r) r = true := by
  cases r <;> simp [applyFlag, inRequested]

/-- A mode state with insert mode already active, for the C2
counterexample. -/
def msIns : ModeState where
  insert_mode := true
  standout_mode := false
  cursor_hidden := false
  scroll_region := none

/-- Counterexample to C2 as stated: starting from a state already in
insert mode, issuing EnterInsertMode twice in a row emits nothing at all,
while the corresponding capability is the nonempty sequence [27, 105]; so
the pair of requests does not emit the capability sequence exactly once
for every starting ModeState. -/
theorem mode_idempotence_cex :
    (processAll tab0 msIns [ModeRequest.enterInsertMode, ModeRequest.enterInsertMode]).2 = [] ∧
    reqCap tab0 ModeRequest.enterInsertMode = some [27, 105] ∧ ([27, 105] : List Nat) ≠ [] := by
  decide

/-- C2 amended: issuing the same mode request twice in a row emits the
capability sequence at most once; the second request is always a silent
no-op, and when the starting state is not already in the requested state
and the capability is present, the two requests together emit the
capability exactly once. -/
theorem mode_request_twice (tab : CapabilityTable) (s : ModeState) (r : ModeRequest) :
    step tab (step tab s r).1 r = ((step tab s r).1, []) ∧
    (∀ cap, reqCap tab r = some cap → inRequested s r = false →
        (step tab s r).2 ++ (step tab (step tab s r).1 r).2 = cap) := by
  have hsecond : step tab (step tab s r).1 r = ((step tab s r).1, []) := by
    unfold step
    by_cases hin : inRequested s r
    · simp [hin]
    · cases hc : reqCap tab r with
      | none => simp [hin, hc]
      | some cap => simp [hin, hc, inRequested_applyFlag]
  refine ⟨hsecond, ?_⟩
  intro cap hcap hin
  rw [hsecond]
  unfold step
  simp [hin, hcap]

/-- Witness for C2 (amended): on the concrete table, from the baseline
state, a second EnterInsertMode is a silent no-op and the pair emits the
insert-mode capability exactly once. -/
theorem mode_request_twice_witness :
    step tab0 (step tab0 ms0 ModeRequest.enterInsertMode).1 ModeRequest.enterInsertMode =
      ((step tab0 ms0 ModeRequest.enterInsertMode).1, []) ∧
    (step tab0 ms0 ModeRequest.enterInsertMode).2 ++
      (step tab0 (step tab0 ms0 ModeRequest.enterInsertMode).1 ModeRequest.enterInsertMode).2 =
      [27, 105] :=
  ⟨(mode_request_twice tab0 ms0 ModeRequest.enterInsertMode).1,
   (mode_request_twice tab0 ms0 ModeRequest.enterInsertMode).2 [27, 105] (by decide) (by decide)⟩

/-- The display attributes with enter capabilities in termchar.h lines
138-143 (bold, dim, italic, reverse video, underline). -/
inductive Attr
  | bold
  | dim
  | italic
  | reverseVideo
  | underline
  deriving DecidableEq, Repr

instance : Fintype Attr :=
  ⟨⟨{Attr.bold, Attr.dim, Attr.italic, Attr.reverseVideo, Attr.underline}, by decide⟩,
   by intro x; cases x <;> decide⟩

/-- The enter capability of each attribute (TS_enter_..._mode fields). -/
def enterCap (tab : CapabilityTable) : Attr → Option (List Nat)
  | .bold => tab.TS_enter_bold_mode
  | .dim => tab.TS_enter_dim_mode
  | .italic => tab.TS_enter_italic_mode
  | .reverseVideo => tab.TS_enter_reverse_mode
  | .underline => tab.TS_enter_underline_mode

/-- The per-attribute exit capability, where one exists in the table:
termchar.h only declares an underline exit; the other attributes have no
individual exit string. -/
def exitCap (tab : CapabilityTable) : Attr → Option (List Nat)
  | .underline => tab.TS_exit_underline_mode
  | _ => none

/-- Modelled from the spec: exiting one attribute while others remain
desired (section 4.3; the implementation, term.c turn_off_highlight and
friends, is not under src/).  With a per-attribute exit capability, emit
it; otherwise go through TS_exit_attribute_mode and re-enter every
attribute that should stay on. -/
def exit_attribute (tab : CapabilityTable) (desired : List Attr) (a : Attr) : List Nat :=
  match exitCap tab a with
  | some off => off
  | none =>
    match tab.TS_exit_attribute_mode with
    | some alloff =>
        alloff ++ List.flatten ((desired.filter (fun b => b ≠ a)).map
          (fun b => (enterCap tab b).getD []))
    | none => []

/-- C3: with no per-attribute exit capabilities but an all-attributes-off
capability present, exiting attribute A while bold remains desired emits
exactly the all-off sequence followed by the enter-bold sequence. -/
theorem attribute_exit_reenters (tab : CapabilityTable) (a : Attr) (desired : List Attr)
    (alloff eb : List Nat)
    (hnoexit : ∀ b : Attr, exitCap tab b = none)
    (halloff : tab.TS_exit_attribute_mode = some alloff)
    (hbold : tab.TS_enter_bold_mode = some eb)
    (hdes : desired.filter (fun b => b ≠ a) = [Attr.bold]) :
    exit_attribute tab desired a = alloff ++ eb := by
  unfold exit_attribute
  rw [hnoexit a, halloff, hdes]
  simp [enterCap, hbold]

/-- A table with no per-attribute exit capability at all, for the C3
witness. -/
def tabNoExit : CapabilityTable :=
  { tab0 with TS_exit_underline_mode := none }

/-- Witness for C3: on the concrete table with no per-attribute exits,
exiting dim while bold stays desired emits [all-off] ++ [enter-bold]. -/
theorem attribute_exit_reenters_witness :
    exit_attribute tabNoExit [Attr.bold, Attr.dim] Attr.dim = [27, 48] ++ [27, 49] :=
  attribute_exit_reenters tabNoExit Attr.dim [Attr.bold, Attr.dim] [27, 48] [27, 49]
    (by decide) (by decide) (by decide) (by decide)

/-- Modelled from the spec: the repeat-character optimization of section
4.2 (term.c tty_write_glyphs is not under src/).  TS_repeat is a
parameterized capability; its emission is the template bytes followed by
the count and the repeated character.  RPov (termchar.h line 182) is the
number of characters that justifies starting a TS_repeat. -/
def emit_run (tab : CapabilityTable) (c : Nat) (r : Nat) : List Nat :=
  match tab.TS_repeat with
  | some rp => if tab.RPov < r then rp ++ [r, c] else List.replicate r c
  | none => List.replicate r c

/-- C4: a run of identical characters uses the repeat form exactly when a
repeat capability exists and the run length exceeds the threshold RPov;
otherwise the run is emitted literally. -/
theorem repeat_run_correct (tab : CapabilityTable) (c r : Nat) :
    (∀ rp, tab.TS_repeat = some rp → tab.RPov < r → emit_run tab c r = rp ++ [r, c]) ∧
    (tab.TS_repeat = none ∨ r ≤ tab.RPov → emit_run tab c r = List.replicate r c) := by
  constructor
  · intro rp hrp hlt
    simp [emit_run, hrp, hlt]
  · intro h
    cases h with
    | inl hnone => simp [emit_run, hnone]
    | inr hle =>
        cases hc : tab.TS_repeat with
        | none => simp [emit_run, hc]
        | some rp => simp [emit_run, hc, Nat.not_lt.mpr hle]

/-- Witness for C4: with threshold 4 and repeat capability [27, 114], a
run of 10 copies of character 65 uses the repeat form and a run of 3 is
emitted as 3 literal characters. -/
theorem repeat_run_correct_witness :
    emit_run tab0 65 10 = [27, 114] ++ [10, 65] ∧
    emit_run tab0 65 3 = List.replicate 3 65 :=
  ⟨(repeat_run_correct tab0 65 10).1 [27, 114] (by decide) (by decide),
   (repeat_run_correct tab0 65 3).2 (Or.inr (by decide))⟩

/-- Modelled from the spec: SetScrollRegion of section 4.3 (term.c
tty_set_scroll_region is not under src/).  The request is validated
against the device height: a bound outside [0, frame_lines) is an
InvalidRegion contract violation and is not clamped.  A request equal to
the tracked region is a silent no-op; otherwise the TS_set_scroll_region
capability is emitted with the two line parameters (or the request
degrades to a no-op when the capability is absent). -/
def set_scroll_region (tab : CapabilityTable) (frame_lines : Nat) (s : ModeState)
    (top bottom : Int) : Except TtyError (ModeState × List Nat) :=
  if 0 ≤ top ∧ top < (frame_lines : Int) ∧ 0 ≤ bottom ∧ bottom < (frame_lines : Int) then
    if s.scroll_region = some (top, bottom) then Except.ok (s, [])
    else
      match tab.TS_set_scroll_region with
      | some cs =>
          Except.ok ({ s with scroll_region := some (top, bottom) },
            cs ++ [top.toNat, bottom.toNat])
      | none => Except.ok (s, [])
  else Except.error TtyError.InvalidRegion

/-- Whether a scroll-region request succeeded. -/
def exceptOk : Except TtyError (ModeState × List Nat) → Bool
  | .ok _ => true
  | .error _ => false

/-- The mode state after a scroll-region request (unchanged on error). -/
def applyRegion (tab : CapabilityTable) (frame_lines : Nat) (s : ModeState)
    (top bottom : Int) : ModeState :=
  match set_scroll_region tab frame_lines s top bottom with
  | .ok p => p.1
  | .error _ => s

/-- C5: a scroll-region request with a bound outside [0, frame_lines)
fails with InvalidRegion; a request inside the bounds succeeds, and
repeating the same valid request is idempotent: the second request
returns the same state and emits nothing. -/
theorem scroll_region_bounds (tab : CapabilityTable) (H : Nat) (s : ModeState)
    (top bottom : Int) :
    (¬ (0 ≤ top ∧ top < (H : Int) ∧ 0 ≤ bottom ∧ bottom < (H : Int)) →
        set_scroll_region tab H s top bottom = Except.error TtyError.InvalidRegion) ∧
    (0 ≤ top ∧ top < (H : Int) ∧ 0 ≤ bottom ∧ bottom < (H : Int) →
        exceptOk (set_scroll_region tab H s top bottom) = true ∧
        set_scroll_region tab H (applyRegion tab H s top bottom) top bottom =
          Except.ok (applyRegion tab H s top bottom, [])) := by
  constructor
  · intro hout
    unfold set_scroll_region
    rw [if_neg hout]
  · intro hin
    by_cases hcur : s.scroll_region = some (top, bottom)
    · have hcall : set_scroll_region tab H s top bottom = Except.ok (s, []) := by
        unfold set_scroll_region
        rw [if_pos hin, if_pos hcur]
      have happ : applyRegion tab H s top bottom = s := by
        unfold applyRegion
        rw [hcall]
      rw [hcall, happ, hcall]
      exact ⟨rfl, rfl⟩
    · cases hc : tab.TS_set_scroll_region with
      | none =>
          have hcall : set_scroll_region tab H s top bottom = Except.ok (s, []) := by
            unfold set_scroll_region
            rw [if_pos hin, if_neg hcur, hc]
          have happ : applyRegion tab H s top bottom = s := by
            unfold applyRegion
            rw [hcall]
          rw [hcall, happ, hcall]
          exact ⟨rfl, rfl⟩
      | some cs =>
          have hcall : set_scroll_region tab H s top bottom =
              Except.ok ({ s with scroll_region := some (top, bottom) },
                cs ++ [top.toNat, bottom.toNat]) := by
            unfold set_scroll_region
            rw [if_pos hin, if_neg hcur, hc]
          have happ : applyRegion tab H s top bottom =
              { s with scroll_region := some (top, bottom) } := by
            unfold applyRegion
            rw [hcall]
          rw [hcall, happ]
          refine ⟨rfl, ?_⟩
          unfold set_scroll_region
          rw [if_pos hin, if_pos rfl]

/-- Witness for C5: on a 24-line device, requesting region (-1, 5) fails
with InvalidRegion; requesting (0, 23) succeeds and repeating it returns
the same state with no emission. -/
theorem scroll_region_bounds_witness :
    set_scroll_region tab0 24 ms0 (-1) 5 = Except.error TtyError.InvalidRegion ∧
    (exceptOk (set_scroll_region tab0 24 ms0 0 23) = true ∧
      set_scroll_region tab0 24 (applyRegion tab0 24 ms0 0 23) 0 23 =
        Except.ok (applyRegion tab0 24 ms0 0 23, [])) :=
  ⟨(scroll_region_bounds tab0 24 ms0 (-1) 5).1 (by decide),
   (scroll_region_bounds tab0 24 ms0 0 23).2 (by decide)⟩

/-- The primitive operations of the cost model that admit several
realizations (spec section 4.2). -/
inductive CostRequest
  | insertLines (n : Nat)
  | deleteLines (n : Nat)
  | setRegion (top bottom : Int)
  deriving DecidableEq, Repr

/-- Modelled from the spec: choose between a multi-count capability and n
repetitions of the single-unit capability by comparing character costs
(section 4.2 insert/delete decisions; calccost in the missing cm.c/term.c).
The multi-count emission is the template followed by the count. -/
def chooseMulti (multi single : Option (List Nat)) (n : Nat) : List Nat :=
  match multi, single with
  | some m, some sg =>
      if (m ++ [n]).length ≤ n * sg.length then m ++ [n]
      else List.flatten (List.replicate n sg)
  | some m, none => m ++ [n]
  | none, some sg => List.flatten (List.replicate n sg)
  | none, none => []

/-- Modelled from the spec: the realization the cost model selects for a
request, as a byte sequence (section 4.2; the implementation is not under
src/). -/
def chooseRealization (tab : CapabilityTable) (s : ModeState) : CostRequest → List Nat
  | .insertLines n => chooseMulti tab.TS_ins_multi_lines tab.TS_ins_line n
  | .deleteLines n => chooseMulti tab.TS_del_multi_lines tab.TS_del_line n
  | .setRegion top bottom =>
      if s.scroll_region = some (top, bottom) then []
      else
        match tab.TS_set_scroll_region with
        | some cs => cs ++ [top.toNat, bottom.toNat]
        | none => []

/-- The character-equivalent cost of the selected realization. -/
def computeCost (tab : CapabilityTable) (s : ModeState) (r : CostRequest) : Nat :=
  (chooseRealization tab s r).length

/-- C6: cost computation is a pure function of (table, state, request):
two runs on identical triples compute identical costs and select the
identical realization. -/
theorem cost_model_deterministic (tab1 tab2 : CapabilityTable) (s1 s2 : ModeState)
    (r1 r2 : CostRequest) (ht : tab1 = tab2) (hs : s1 = s2) (hr : r1 = r2) :
    computeCost tab1 s1 r1 = computeCost tab2 s2 r2 ∧
    chooseRealization tab1 s1 r1 = chooseRealization tab2 s2 r2 := by
  subst ht
  subst hs
  subst hr
  exact ⟨rfl, rfl⟩

/-- Witness for C6: two runs on the same concrete triple agree. -/
theorem cost_model_deterministic_witness :
    computeCost tab0 ms0 (CostRequest.insertLines 3) =
      computeCost tab0 ms0 (CostRequest.insertLines 3) ∧
    chooseRealization tab0 ms0 (CostRequest.insertLines 3) =
      chooseRealization tab0 ms0 (CostRequest.insertLines 3) :=
  cost_model_deterministic tab0 tab0 ms0 ms0
    (CostRequest.insertLines 3) (CostRequest.insertLines 3) rfl rfl rfl

/-- Device session lifecycle state: reference_count as in termchar.h line
69, the output buffer and what has been flushed to the device, whether
the initial tty modes (old_tty, line 64) have been restored, how many
times the session has been closed, and whether it is still on the
tty_list registry chain (line 237). -/
structure SessionState where
  reference_count : Nat
  buffered : List Nat
  flushed : List Nat
  modes_restored : Bool
  close_count : Nat
  in_registry : Bool
  deriving DecidableEq, Repr

/-- A session before any attach: pending bytes in its buffer, nothing
flushed, original modes not yet restored, not yet on the registry. -/
def initial_session (pending : List Nat) : SessionState where
  reference_count := 0
  buffered := pending
  flushed := []
  modes_restored := false
  close_count := 0
  in_registry := false

/-- Modelled from the spec: attaching a consumer to a session increments
its reference count (section 4.4; the implementation is not under src/). -/
def attach (s : SessionState) : SessionState :=
  { s with reference_count := s.reference_count + 1, in_registry := true }

/-- Modelled from the spec: detaching decrements the reference count; at
zero it flushes the buffered output, restores the original device modes,
closes the session and removes it from the registry; a detach of an
already-closed session is idempotent-safe (sections 4.4 and 5). -/
def detach (s : SessionState) : SessionState :=
  match s.reference_count with
  | 0 => s
  | 1 =>
      { reference_count := 0, buffered := [], flushed := s.flushed ++ s.buffered,
        modes_restored := true, close_count := s.close_count + 1, in_registry := false }
  | n + 2 => { s with reference_count := n + 1 }

/-- The session after n attaches followed by k detaches. -/
def session_after (pending : List Nat) (n k : Nat) : SessionState :=
  Nat.iterate detach k (Nat.iterate attach n (initial_session pending))

/-- Attaching n+1 times starting from a fresh session yields reference
count n+1 with nothing else changed. -/
theorem attach_iterate (pending : List Nat) (n : Nat) :
    Nat.iterate attach (n + 1) (initial_session pending) =
      { reference_count := n + 1, buffered := pending, flushed := [],
        modes_restored := false, close_count := 0, in_registry := true } := by
  induction n with
  | zero => rfl
  | succ m ih =>
      rw [Function.iterate_succ_apply', ih]
      rfl

/-- Detaching k times from a live session with reference count m + 1,
k ≤ m, leaves it live with reference count m + 1 - k. -/
theorem detach_iterate (pending : List Nat) :
    ∀ (k m : Nat) (fl : List Nat) (cc : Nat), k ≤ m →
      Nat.iterate detach k
        { reference_count := m + 1, buffered := pending, flushed := fl,
          modes_restored := false, close_count := cc, in_registry := true } =
      { reference_count := m + 1 - k, buffered := pending, flushed := fl,
        modes_restored := false, close_count := cc, in_registry := true } := by
  intro k
  induction k with
  | zero => intro m fl cc _; rfl
  | succ j ih =>
      intro m fl cc hk
      cases m with
      | zero => exact absurd hk (by omega)
      | succ m' =>
          rw [Function.iterate_succ_apply]
          have hdet : detach
              { reference_count := m' + 2, buffered := pending, flushed := fl,
                modes_restored := false, close_count := cc, in_registry := true } =
              { reference_count := m' + 1, buffered := pending, flushed := fl,
                modes_restored := false, close_count := cc, in_registry := true } := rfl
          rw [hdet, ih m' fl cc (by omega)]
          congr 1
          omega

/-- C7: after n attaches and k < n detaches the session is still on the
registry, never closed, with reference count n - k; the n-th detach
flushes the buffered output, restores the original modes, closes the
session exactly once and removes it from the registry. -/
theorem reference_counting (pending : List Nat) (n k : Nat) (hn : 0 < n) (hk : k < n) :
    ((session_after pending n k).in_registry = true ∧
      (session_after pending n k).close_count = 0 ∧
      (session_after pending n k).reference_count = n - k) ∧
    session_after pending n n =
      { reference_count := 0, buffered := [], flushed := pending,
        modes_restored := true, close_count := 1, in_registry := false } := by
  cases n with
  | zero => exact absurd hn (by omega)
  | succ m =>
      have hbase := attach_iterate pending m
      constructor
      · unfold session_after
        rw [hbase, detach_iterate pending k m [] 0 (by omega)]
        exact ⟨rfl, rfl, rfl⟩
      · unfold session_after
        rw [hbase, Function.iterate_succ_apply',
          detach_iterate pending m m [] 0 (by omega)]
        have h1 : m + 1 - m = 1 := by omega
        rw [h1]
        rfl

/-- Witness for C7: three attaches followed by two detaches leave the
session open with reference count one; the third detach flushes the
pending bytes and closes the session exactly once. -/
theorem reference_counting_witness :
    ((session_after [7, 8, 9] 3 2).in_registry = true ∧
      (session_after [7, 8, 9] 3 2).close_count = 0 ∧
      (session_after [7, 8, 9] 3 2).reference_count = 3 - 2) ∧
    session_after [7, 8, 9] 3 3 =
      { reference_count := 0, buffered := [], flushed := [7, 8, 9],
        modes_restored := true, close_count := 1, in_registry := false } :=
  reference_counting [7, 8, 9] 3 2 (by decide) (by decide)

/-- The mouse-highlight extent tracked per tty (Mouse_HLInfo field
mouse_highlight, termchar.h line 87): the inclusive row range currently
shown highlighted, or none. -/
structure MouseHLInfo where
  extent : Option (Nat × Nat)
  deriving DecidableEq, Repr

/-- Modelled from the spec: a write whose target row overlaps the active
mouse-highlight extent first emits the clear-highlight sequence and drops
the extent; a write elsewhere emits only its own bytes (section 4.3; the
implementation is not under src/). -/
def write_row (clearSeq : List Nat) (hl : MouseHLInfo) (row : Nat) (bytes : List Nat) :
    MouseHLInfo × List Nat :=
  match hl.extent with
  | some be =>
      if be.1 ≤ row ∧ row ≤ be.2 then ({ extent := none }, clearSeq ++ bytes)
      else (hl, bytes)
  | none => (hl, bytes)

/-- C8: with an active highlight over rows b..e, a write targeting an
overlapping row emits the clear-highlight sequence before any other
output and deactivates the extent; a write targeting a row outside the
extent emits exactly its own bytes and no clear-highlight sequence. -/
theorem mouse_highlight_clearing (clearSeq : List Nat) (b e row : Nat) (bytes : List Nat) :
    (b ≤ row ∧ row ≤ e →
        write_row clearSeq { extent := some (b, e) } row bytes =
          ({ extent := none }, clearSeq ++ bytes)) ∧
    (¬ (b ≤ row ∧ row ≤ e) →
        write_row clearSeq { extent := some (b, e) } row bytes =
          ({ extent := some (b, e) }, bytes)) := by
  constructor
  · intro h
    simp [write_row, h]
  · intro h
    simp [write_row, h]

/-- Witness for C8: with a highlight over rows 2-4, a write at row 3
emits the clear sequence first; a write at row 10 emits only its bytes. -/
theorem mouse_highlight_clearing_witness :
    write_row [27, 99] { extent := some (2, 4) } 3 [65] =
      ({ extent := none }, [27, 99] ++ [65]) ∧
    write_row [27, 99] { extent := some (2, 4) } 10 [65] =
      ({ extent := some (2, 4) }, [65]) :=
  ⟨(mouse_highlight_clearing [27, 99] 2 4 3 [65]).1 (by decide),
   (mouse_highlight_clearing [27, 99] 2 4 10 [65]).2 (by decide)⟩

/-- The input and output streams of a tty device (termchar.h lines 51-54):
each is NULL, modelled as none, exactly while the terminal is suspended. -/
structure TtyStreams where
  input : Option (List Nat)
  output : Option (List Nat)
  deriving DecidableEq, Repr

/-- Whether the terminal is suspended: one of its streams is absent. -/
def suspended (t : TtyStreams) : Bool :=
  t.input.isNone || t.output.isNone

/-- Modelled from the spec: emitting bytes appends to the output stream;
with the stream absent (suspended terminal) the operation has no stream
to write to and takes the null branch, returning none (the emitting code,
term.c, is not under src/). -/
def tty_write_bytes (t : TtyStreams) (bs : List Nat) : Option TtyStreams :=
  match t.output with
  | none => none
  | some o => some { t with output := some (o ++ bs) }

/-- Modelled from the spec: reading consumes the pending input bytes;
with the stream absent the operation takes the null branch, returning
none. -/
def tty_read_input (t : TtyStreams) : Option (List Nat × TtyStreams) :=
  match t.input with
  | none => none
  | some i => some (i, { t with input := some [] })

/-- C9: under the precondition that the terminal is not suspended, both
streams are present and the null-stream branch of every read or emit
operation is unreachable: reading and writing always produce a result. -/
theorem streams_present_no_null_branch (t : TtyStreams) (bs : List Nat)
    (h : suspended t = false) :
    (tty_write_bytes t bs).isSome = true ∧ (tty_read_input t).isSome = true := by
  unfold suspended at h
  simp only [Bool.or_eq_false_iff, Option.isNone_eq_false_iff, Option.isSome_iff_exists] at h
  obtain ⟨hi, ho⟩ := h
  cases hco : t.output with
  | none => rw [hco] at ho; simp at ho
  | some o =>
      cases hci : t.input with
      | none => rw [hci] at hi; simp at hi
      | some i =>
          constructor
          · unfold tty_write_bytes
            rw [hco]
            rfl
          · unfold tty_read_input
            rw [hci]
            rfl

/-- Witness for C9: a live terminal with empty streams accepts a write
and a read. -/
theorem streams_present_no_null_branch_witness :
    (tty_write_bytes { input := some [], output := some [] } [65]).isSome = true ∧
    (tty_read_input { input := some [], output := some [] }).isSome = true :=
  streams_present_no_null_branch { input := some [], output := some [] } [65] (by decide)

/-- The output methods of a frame (enum output_method in dispextern.h,
referenced by FRAME_TTY in termchar.h lines 240-244). -/
inductive OutputMethod
  | output_initial
  | output_termcap
  | output_x_window
  | output_msdos_raw
  | output_w32
  | output_ns
  | output_pgtk
  | output_haiku
  | output_android
  deriving DecidableEq, Repr

/-- The per-terminal data FRAME_TTY returns: the struct tty_display_info
contents modelled in this file (capability table, mode state, reference
count). -/
structure TtyDisplayInfo where
  table : CapabilityTable
  modes : ModeState
  reference_count : Nat
  deriving DecidableEq, Repr

/-- The generic terminal object a tty frame points back to
(terminal->display_info.tty in the FRAME_TTY expansion). -/
structure Terminal where
  display_info_tty : TtyDisplayInfo
  deriving DecidableEq, Repr

/-- A frame, restricted to the fields FRAME_TTY reads. -/
structure Frame where
  output_method : OutputMethod
  terminal : Terminal
  deriving DecidableEq, Repr

/-- FRAME_TTY from src/src/termchar.h lines 240-244: for a termcap or
msdos-raw frame it yields the terminal's tty display info; for any other
frame the C code calls emacs_abort, modelled here as none. -/
def FRAME_TTY (f : Frame) : Option TtyDisplayInfo :=
  if f.output_method = OutputMethod.output_termcap ∨
      f.output_method = OutputMethod.output_msdos_raw
  then some f.terminal.display_info_tty
  else none

/-- C10: FRAME_TTY is defined exactly on termcap and msdos-raw frames:
for such a frame it returns the terminal's tty display info, and for any
other frame it takes the abort branch; under the precondition the abort
branch is unreachable. -/
theorem frame_tty_defined (f : Frame) :
    (f.output_method = OutputMethod.output_termcap ∨
        f.output_method = OutputMethod.output_msdos_raw →
      FRAME_TTY f = some f.terminal.display_info_tty) ∧
    (¬ (f.output_method = OutputMethod.output_termcap ∨
        f.output_method = OutputMethod.output_msdos_raw) →
      FRAME_TTY f = none) := by
  constructor
  · intro h
    unfold FRAME_TTY
    rw [if_pos h]
  · intro h
    unfold FRAME_TTY
    rw [if_neg h]

/-- A concrete tty display info record for the C10 witness. -/
def tdi0 : TtyDisplayInfo where
  table := tab0
  modes := ms0
  reference_count := 1

/-- Witness for C10: a termcap frame yields its terminal's tty display
info. -/
theorem frame_tty_defined_witness :
    FRAME_TTY { output_method := OutputMethod.output_termcap,
                terminal := { display_info_tty := tdi0 } } = some tdi0 :=
  (frame_tty_defined
    { output_method := OutputMethod.output_termcap,
      terminal := { display_info_tty := tdi0 } }).1 (Or.inl rfl)

end Termchar
